import Mathlib

/-!
Verification of the postbin request-bin service (`main.go`) against its
natural-language specification.

The SQLite-backed store is shallowly embedded: the `bins` and `requests`
tables become lists of records kept in rowid (insertion) order, and each SQL
statement executed by the handlers becomes one Lean function on that state.
The JSON marshal/unmarshal of headers, query and body is an excluded external
collaborator per the spec (deliberate opaque serialization boundary), so the
columns hold the decoded values directly.  Timestamps are `Int` milliseconds.
Handlers are functions from store (plus the inputs the HTTP layer hands them:
path-derived ids, request data, the current clock reading) to a response and
a new store.
-/

/-- A row of the `bins` table: `bin_id TEXT PRIMARY KEY, created_at INTEGER,
expires_at INTEGER`. -/
structure BinRec where
  binId : String
  createdAt : Int
  expiresAt : Int
deriving Repr, DecidableEq

/-- A row of the `requests` table.  `headers` and `query` hold the decoded
single-valued maps the capture handler marshals (first value per key); `body`
holds the decoded body string. -/
structure ReqRec where
  reqId : String
  binId : String
  method : String
  path : String
  headers : List (String × String)
  query : List (String × String)
  body : String
  ip : String
  inserted : Int
deriving Repr, DecidableEq

/-- The SQLite database: both tables, rows in rowid (insertion) order. -/
structure Store where
  bins : List BinRec
  requests : List ReqRec
deriving Repr, DecidableEq

/-- `SELECT bin_id, created_at, expires_at FROM bins WHERE bin_id = ?`
(also the shape used for `SELECT expires_at ...` in capture). -/
def queryBin (st : Store) (binId : String) : Option BinRec :=
  st.bins.find? (fun b => b.binId == binId)

/-- `SELECT COUNT(*) FROM requests WHERE bin_id = ?`. -/
def countRequests (st : Store) (binId : String) : Nat :=
  (st.requests.filter (fun r => r.binId == binId)).length

/-- `DELETE FROM bins WHERE bin_id = ?`. -/
def execDeleteBin (st : Store) (binId : String) : Store :=
  { st with bins := st.bins.filter (fun b => b.binId != binId) }

/-- `SELECT ... FROM requests WHERE bin_id = ? AND req_id = ?`. -/
def queryRequest (st : Store) (binId reqId : String) : Option ReqRec :=
  st.requests.find? (fun r => r.binId == binId && r.reqId == reqId)

/-- `ORDER BY inserted ASC LIMIT 1` over a table scan: a single pass that
keeps the current row only when a strictly smaller `inserted` appears, hence
the first row (lowest rowid, i.e. earliest insertion) among those with the
minimal `inserted` value. -/
def minByInserted : List ReqRec → Option ReqRec
  | [] => none
  | r :: rs => some (rs.foldl (fun best x => if x.inserted < best.inserted then x else best) r)

/-- `SELECT ... FROM requests WHERE bin_id = ? ORDER BY inserted ASC LIMIT 1`. -/
def selectOldest (st : Store) (binId : String) : Option ReqRec :=
  minByInserted (st.requests.filter (fun r => r.binId == binId))

/-- `DELETE FROM requests WHERE req_id = ?`. -/
def execDeleteRequest (st : Store) (reqId : String) : Store :=
  { st with requests := st.requests.filter (fun r => r.reqId != reqId) }

/-- `INSERT INTO requests (...) VALUES (...)`: a new row gets the next rowid,
so it goes to the back of the scan order. -/
def execInsertRequest (st : Store) (r : ReqRec) : Store :=
  { st with requests := st.requests ++ [r] }

/-- The rows of the `requests` table owned by one bin, in rowid order. -/
def binRequests (st : Store) (binId : String) : List ReqRec :=
  st.requests.filter (fun r => r.binId == binId)

/-! ## Incoming requests and the capture handler -/

/-- The parts of an incoming HTTP request that `captureRequestHandler` reads.
`headers`/`query` are the multi-valued maps Go's `http.Header` / `url.Values`
expose; each key's list of values is nonempty in Go, but we keep `List` and
take `head?` where the code takes `values[0]`. -/
structure Incoming where
  method : String
  path : String
  headers : List (String × List String)
  query : List (String × List String)
  body : String
  ip : String
deriving Repr, DecidableEq

/-- The collapse `m[name] = values[0]` performed for headers and query. -/
def firstValues (m : List (String × List String)) : List (String × String) :=
  m.filterMap (fun kv => kv.2.head?.map (fun v => (kv.1, v)))

/-- The row the capture handler inserts: fresh `req_id`, owning bin, verbatim
method/path/ip, collapsed headers/query, opaque body and `inserted = now`. -/
def capRecord (binId : String) (now : Int) (reqId : String) (inc : Incoming) : ReqRec :=
  { reqId := reqId, binId := binId, method := inc.method, path := inc.path,
    headers := firstValues inc.headers, query := firstValues inc.query,
    body := inc.body, ip := inc.ip, inserted := now }

/-- Outcome of a `QueryRow(...).Scan(...)` call: a scanned value, Go's
`sql.ErrNoRows`, or any other (storage-level) error. -/
inductive QueryOutcome (α : Type) where
  | ok (a : α)
  | noRows
  | storageError
deriving Repr, DecidableEq

/-- The healthy-storage outcome of `SELECT expires_at FROM bins WHERE bin_id = ?`. -/
def queryBinExpires (st : Store) (binId : String) : QueryOutcome Int :=
  match queryBin st binId with
  | some b => .ok b.expiresAt
  | none => .noRows

/-- Responses of `captureRequestHandler`: 200 with the raw req-id string,
404 "Bin not found", 410 "Bin expired", 500 "Error storing request". -/
inductive CaptureResp where
  | ok (reqId : String)
  | notFound
  | gone
  | storageError
deriving Repr, DecidableEq

/-- The capture handler body after the expiry scan: `if time.Now().UnixMilli()
> expires` answer 410, else build the row and insert it (a failed insert
writes nothing — SQLite statements are atomic — and answers 500). -/
def captureAfterScan (st : Store) (expires : Int) (insertOk : Bool)
    (now : Int) (reqId : String) (binId : String) (inc : Incoming) : CaptureResp × Store :=
  if now > expires then (.gone, st)
  else if insertOk then (.ok reqId, execInsertRequest st (capRecord binId now reqId inc))
  else (.storageError, st)

/-- `captureRequestHandler`, parametric in the outcome of its first query and
of the insert, mirroring the Go control flow: only `err == sql.ErrNoRows` is
checked after the scan, so on any other scan error `expires` keeps its zero
value and control falls through to the expiry comparison. -/
def captureCore (st : Store) (qres : QueryOutcome Int) (insertOk : Bool)
    (now : Int) (reqId : String) (binId : String) (inc : Incoming) : CaptureResp × Store :=
  match qres with
  | .noRows => (.notFound, st)
  | .ok e => captureAfterScan st e insertOk now reqId binId inc
  | .storageError => captureAfterScan st 0 insertOk now reqId binId inc

/-- `captureRequestHandler` with healthy storage. -/
def captureRequestHandler (st : Store) (now : Int) (reqId : String)
    (binId : String) (inc : Incoming) : CaptureResp × Store :=
  captureCore st (queryBinExpires st binId) true now reqId binId inc

/-! ## Retrieval handlers -/

/-- Responses of `getRequestHandler`: 200 with the record, or 404. -/
inductive GetReqResp where
  | ok (r : ReqRec)
  | notFound
deriving Repr, DecidableEq

/-- `getRequestHandler` (healthy storage): point lookup by `(bin_id, req_id)`. -/
def getRequestHandler (st : Store) (binId reqId : String) : GetReqResp :=
  match queryRequest st binId reqId with
  | none => .notFound
  | some r => .ok r

/-- The JSON body of a bin response: `{binId, now, expires, entries}`. -/
structure BinResponse where
  binId : String
  now : Int
  expires : Int
  entries : Nat
deriving Repr, DecidableEq

/-- Responses of `getBinHandler`: 200 with the `BinResponse`, or 404. -/
inductive GetBinResp where
  | ok (b : BinResponse)
  | notFound
deriving Repr, DecidableEq

/-- `getBinHandler` (healthy storage): the `Bin` struct scans `created_at`
into its `Now` field and `expires_at` into `Expires`, then the response adds
the live `COUNT(*)` of the bin's requests. -/
def getBinHandler (st : Store) (binId : String) : GetBinResp :=
  match queryBin st binId with
  | none => .notFound
  | some bin =>
      .ok { binId := bin.binId, now := bin.createdAt, expires := bin.expiresAt,
            entries := countRequests st binId }

/-- Responses of `deleteBinHandler`: it only ever answers 200
`{"msg":"Bin Deleted"}` when storage is healthy. -/
inductive DeleteResp where
  | ok
deriving Repr, DecidableEq

/-- `deleteBinHandler` (healthy storage): one `DELETE FROM bins` statement,
success regardless of whether a row matched. -/
def deleteBinHandler (st : Store) (binId : String) : DeleteResp × Store :=
  (.ok, execDeleteBin st binId)

/-! ## Shift -/

/-- Responses of `shiftRequestHandler`: 200 with the record, or 404
`{"msg":"No requests in this bin"}`. -/
inductive ShiftResp where
  | ok (r : ReqRec)
  | notFound
deriving Repr, DecidableEq

/-- The tail of `shiftRequestHandler` after its SELECT: on `sql.ErrNoRows`
answer 404, otherwise `DELETE FROM requests WHERE req_id = ?` and answer 200
with the already-scanned record.  Split out because the SELECT and the DELETE
are separate, individually-atomic statements with no enclosing transaction. -/
def shiftAfterSelect (st : Store) (sel : Option ReqRec) : ShiftResp × Store :=
  match sel with
  | none => (.notFound, st)
  | some r => (.ok r, execDeleteRequest st r.reqId)

/-- `shiftRequestHandler` (healthy storage) run in isolation: SELECT the
oldest row of the bin, then DELETE it by `req_id`. -/
def shiftRequestHandler (st : Store) (binId : String) : ShiftResp × Store :=
  shiftAfterSelect st (selectOldest st binId)

/-- Two concurrent `shiftRequestHandler` calls on the same bin, under the
interleaving SELECT(A); SELECT(B); DELETE(A); DELETE(B): each statement is
atomic at the store, but nothing serializes the SELECT/DELETE pair, so B's
SELECT may run before A's DELETE.  Returns A's response, B's response and the
final store. -/
def shiftTwoInterleaved (st : Store) (binId : String) : ShiftResp × ShiftResp × Store :=
  let selA := selectOldest st binId
  let selB := selectOldest st binId
  let ra := shiftAfterSelect st selA
  let rb := shiftAfterSelect ra.2 selB
  (ra.1, rb.1, rb.2)

/-- Capture a list of requests in sequence (each as one call of
`captureRequestHandler`), stopping with `none` if any call is not a 200. -/
def captureList (st : Store) (binId : String) : List (Int × String × Incoming) → Option Store
  | [] => some st
  | c :: cs =>
      match captureRequestHandler st c.1 c.2.1 binId c.2.2 with
      | (.ok _, st') => captureList st' binId cs
      | _ => none

/-- `n` sequential calls of `shiftRequestHandler`, collecting the records of
the 200 responses in order (stopping early on a 404). -/
def shiftN : Nat → Store → String → List ReqRec × Store
  | 0, st, _ => ([], st)
  | n + 1, st, binId =>
      match shiftRequestHandler st binId with
      | (.ok r, st') =>
          let rest := shiftN n st' binId
          (r :: rest.1, rest.2)
      | (.notFound, st') => ([], st')

/-! ## Basic lemmas about the store primitives -/

/-- The scan of `ORDER BY inserted ASC LIMIT 1` never replaces the current
best when every later row is at least as large. -/
theorem foldl_min_fixed (rs : List ReqRec) (r : ReqRec)
    (h : ∀ x ∈ rs, r.inserted ≤ x.inserted) :
    rs.foldl (fun best x => if x.inserted < best.inserted then x else best) r = r := by
  induction rs with
  | nil => rfl
  | cons a as ih =>
      have ha : ¬ a.inserted < r.inserted := not_lt.2 (h a (List.mem_cons_self a as))
      rw [List.foldl_cons]
      simp only [if_neg ha]
      exact ih fun x hx => h x (List.mem_cons_of_mem a hx)

theorem minByInserted_head (r : ReqRec) (rs : List ReqRec)
    (h : ∀ x ∈ rs, r.inserted ≤ x.inserted) :
    minByInserted (r :: rs) = some r := by
  rw [minByInserted]
  exact congrArg some (foldl_min_fixed rs r h)

theorem selectOldest_eq (st : Store) (binId : String) :
    selectOldest st binId = minByInserted (binRequests st binId) := rfl

theorem queryBin_insertRequest (st : Store) (r : ReqRec) (binId : String) :
    queryBin (execInsertRequest st r) binId = queryBin st binId := rfl

theorem bins_insertRequest (st : Store) (r : ReqRec) :
    (execInsertRequest st r).bins = st.bins := rfl

/-- Filtering preserves the no-duplicate property of the `req_id` column. -/
theorem nodup_reqIds_filter (l : List ReqRec) (p : ReqRec → Bool)
    (h : (l.map (fun q => q.reqId)).Nodup) :
    ((l.filter p).map (fun q => q.reqId)).Nodup :=
  List.Nodup.sublist (List.Sublist.map _ (List.filter_sublist l)) h

/-- A bin's request list has no duplicate `req_id` when the whole table has
none. -/
theorem nodup_reqIds_binRequests (st : Store) (binId : String)
    (h : (st.requests.map (fun q => q.reqId)).Nodup) :
    ((binRequests st binId).map (fun q => q.reqId)).Nodup :=
  nodup_reqIds_filter st.requests _ h

/-- Deleting one `req_id` filters a bin's request list pointwise. -/
theorem binRequests_deleteRequest (st : Store) (binId rid : String) :
    binRequests (execDeleteRequest st rid) binId
      = (binRequests st binId).filter (fun r => r.reqId != rid) := by
  simp only [binRequests, execDeleteRequest, List.filter_filter]
  exact List.filter_congr fun x _ => Bool.and_comm _ _

/-- A bin with no stored requests answers 404 to shift and leaves the store
unchanged. -/
theorem shift_on_empty (st : Store) (binId : String)
    (h : binRequests st binId = []) :
    shiftRequestHandler st binId = (.notFound, st) := by
  unfold shiftRequestHandler
  rw [selectOldest_eq, h]
  rfl

/-- One isolated shift on a bin whose request list is sorted by `inserted`
pops exactly the head: it is returned, removed, and the table invariants are
preserved. -/
theorem shift_step (st : Store) (binId : String) (r : ReqRec) (rest : List ReqRec)
    (hbr : binRequests st binId = r :: rest)
    (hids : (st.requests.map (fun q => q.reqId)).Nodup)
    (hsort : (r :: rest).Pairwise (fun a c => a.inserted ≤ c.inserted)) :
    shiftRequestHandler st binId = (.ok r, execDeleteRequest st r.reqId) ∧
    binRequests (execDeleteRequest st r.reqId) binId = rest ∧
    (((execDeleteRequest st r.reqId).requests).map (fun q => q.reqId)).Nodup ∧
    rest.Pairwise (fun a c => a.inserted ≤ c.inserted) := by
  have hhead : ∀ x ∈ rest, r.inserted ≤ x.inserted := (List.pairwise_cons.1 hsort).1
  have hsel : selectOldest st binId = some r := by
    rw [selectOldest_eq, hbr]
    exact minByInserted_head r rest hhead
  have hshift : shiftRequestHandler st binId = (.ok r, execDeleteRequest st r.reqId) := by
    unfold shiftRequestHandler
    rw [hsel]
    rfl
  refine ⟨hshift, ?_, nodup_reqIds_filter st.requests _ hids, (List.pairwise_cons.1 hsort).2⟩
  have hnd : ((binRequests st binId).map (fun q => q.reqId)).Nodup :=
    nodup_reqIds_binRequests st binId hids
  rw [hbr] at hnd
  have hnotin : r.reqId ∉ rest.map (fun q => q.reqId) := by
    rw [List.map_cons, List.nodup_cons] at hnd
    exact hnd.1
  rw [binRequests_deleteRequest, hbr, List.filter_cons]
  simp only [bne_self_eq_false, Bool.false_eq_true, if_false]
  exact List.filter_eq_self.2 fun x hx =>
    bne_iff_ne.2 fun he => hnotin (he ▸ List.mem_map_of_mem _ hx)

/-- Unfolding one successful round of `shiftN`. -/
theorem shiftN_cons (n : Nat) (st st' : Store) (binId : String) (r : ReqRec)
    (h : shiftRequestHandler st binId = (.ok r, st')) :
    shiftN (n + 1) st binId = (r :: (shiftN n st' binId).1, (shiftN n st' binId).2) := by
  rw [shiftN, h]

/-- Shifting as many times as the bin holds requests returns exactly its
request list (in rowid order) and empties the bin, provided the list is
sorted by `inserted` and `req_id`s are unique. -/
theorem shiftN_exact (binId : String) :
    ∀ (l : List ReqRec) (st : Store),
    binRequests st binId = l →
    (st.requests.map (fun q => q.reqId)).Nodup →
    l.Pairwise (fun a c => a.inserted ≤ c.inserted) →
    (shiftN l.length st binId).1 = l ∧
    binRequests (shiftN l.length st binId).2 binId = [] := by
  intro l
  induction l with
  | nil =>
      intro st hbr _ _
      exact ⟨rfl, hbr⟩
  | cons r rest ih =>
      intro st hbr hids hsort
      obtain ⟨hshift, hbr', hids', hsort'⟩ := shift_step st binId r rest hbr hids hsort
      rw [List.length_cons, shiftN_cons rest.length st _ binId r hshift]
      obtain ⟨ih1, ih2⟩ := ih (execDeleteRequest st r.reqId) hbr' hids' hsort'
      exact ⟨by rw [ih1], ih2⟩

/-! ## Capture lemmas -/

/-- Capturing into an existing, unexpired bin appends exactly one row. -/
theorem capture_ok (st : Store) (b : BinRec) (now : Int) (rid binId : String)
    (inc : Incoming) (hb : queryBin st binId = some b) (hlive : now ≤ b.expiresAt) :
    captureRequestHandler st now rid binId inc
      = (.ok rid, execInsertRequest st (capRecord binId now rid inc)) := by
  have h1 : queryBinExpires st binId = QueryOutcome.ok b.expiresAt := by
    unfold queryBinExpires
    rw [hb]
  unfold captureRequestHandler
  rw [h1]
  show captureAfterScan st b.expiresAt true now rid binId inc = _
  unfold captureAfterScan
  rw [if_neg (not_lt.2 hlive)]
  rfl

/-- Capturing into a missing bin answers 404 and writes nothing. -/
theorem capture_notFound (st : Store) (now : Int) (rid binId : String)
    (inc : Incoming) (hb : queryBin st binId = none) :
    captureRequestHandler st now rid binId inc = (.notFound, st) := by
  have h1 : queryBinExpires st binId = QueryOutcome.noRows := by
    unfold queryBinExpires
    rw [hb]
  unfold captureRequestHandler
  rw [h1]
  rfl

/-- Capturing into an expired bin answers 410 and writes nothing. -/
theorem capture_gone (st : Store) (b : BinRec) (now : Int) (rid binId : String)
    (inc : Incoming) (hb : queryBin st binId = some b) (hexp : b.expiresAt < now) :
    captureRequestHandler st now rid binId inc = (.gone, st) := by
  have h1 : queryBinExpires st binId = QueryOutcome.ok b.expiresAt := by
    unfold queryBinExpires
    rw [hb]
  unfold captureRequestHandler
  rw [h1]
  show captureAfterScan st b.expiresAt true now rid binId inc = _
  unfold captureAfterScan
  rw [if_pos hexp]

/-- A run of captures into one live bin succeeds and appends the expected
rows in order, leaving the `bins` table untouched. -/
theorem captureList_ok (binId : String) (b : BinRec) :
    ∀ (cs : List (Int × String × Incoming)) (st : Store),
    queryBin st binId = some b →
    (∀ c ∈ cs, c.1 ≤ b.expiresAt) →
    captureList st binId cs
      = some ⟨st.bins, st.requests ++ cs.map (fun c => capRecord binId c.1 c.2.1 c.2.2)⟩ := by
  intro cs
  induction cs with
  | nil =>
      intro st _ _
      simp [captureList]
  | cons c cs ih =>
      intro st hb hl
      rw [captureList, capture_ok st b c.1 c.2.1 binId c.2.2 hb (hl c (List.mem_cons_self c cs))]
      show captureList (execInsertRequest st (capRecord binId c.1 c.2.1 c.2.2)) binId cs = _
      rw [ih (execInsertRequest st (capRecord binId c.1 c.2.1 c.2.2))
            hb (fun x hx => hl x (List.mem_cons_of_mem c hx))]
      simp [execInsertRequest, List.append_assoc]

/-- The bin's view of the table after the captured rows are appended. -/
theorem binRequests_captured (st : Store) (binId : String)
    (cs : List (Int × String × Incoming)) :
    binRequests ⟨st.bins, st.requests ++ cs.map (fun c => capRecord binId c.1 c.2.1 c.2.2)⟩ binId
      = binRequests st binId ++ cs.map (fun c => capRecord binId c.1 c.2.1 c.2.2) := by
  simp only [binRequests, List.filter_append]
  refine congrArg _ (List.filter_eq_self.2 ?_)
  intro a ha
  obtain ⟨c, _, rfl⟩ := List.mem_map.1 ha
  simp [capRecord]

/-! ## Bin handler lemmas -/

theorem getBinHandler_none (st : Store) (binId : String)
    (h : queryBin st binId = none) : getBinHandler st binId = .notFound := by
  unfold getBinHandler
  rw [h]

theorem getBinHandler_some (st : Store) (binId : String) (b : BinRec)
    (h : queryBin st binId = some b) :
    getBinHandler st binId
      = .ok ⟨b.binId, b.createdAt, b.expiresAt, countRequests st binId⟩ := by
  unfold getBinHandler
  rw [h]

/-- After `DELETE FROM bins WHERE bin_id = ?` the bin row is gone. -/
theorem queryBin_deleteBin (st : Store) (binId : String) :
    queryBin (execDeleteBin st binId) binId = none := by
  unfold queryBin execDeleteBin
  refine List.find?_eq_none.2 fun x hx => ?_
  have h2 := (List.mem_filter.1 hx).2
  simp only [bne_iff_ne, ne_eq] at h2
  simp [h2]

theorem find?_append_none {α : Type} (p : α → Bool) :
    ∀ (l₁ l₂ : List α), l₁.find? p = none → (l₁ ++ l₂).find? p = l₂.find? p := by
  intro l₁
  induction l₁ with
  | nil => intro l₂ _; rfl
  | cons a as ih =>
      intro l₂ h
      cases hpa : p a with
      | true =>
          rw [List.find?_cons_of_pos _ hpa] at h
          exact absurd h (by simp)
      | false =>
          rw [List.cons_append, List.find?_cons_of_neg _ (by simp [hpa])]
          rw [List.find?_cons_of_neg _ (by simp [hpa])] at h
          exact ih l₂ h

/-- The freshly inserted row is found by the point lookup, provided its
`req_id` is fresh (it is a primary key). -/
theorem queryRequest_after_insert (st : Store) (binId : String) (r : ReqRec)
    (hbin : r.binId = binId) (hrid : r.reqId ∉ st.requests.map (fun q => q.reqId)) :
    queryRequest (execInsertRequest st r) binId r.reqId = some r := by
  have h1 : st.requests.find? (fun q => q.binId == binId && q.reqId == r.reqId) = none := by
    refine List.find?_eq_none.2 fun x hx hpx => ?_
    simp only [Bool.and_eq_true, beq_iff_eq] at hpx
    exact hrid (hpx.2 ▸ List.mem_map_of_mem _ hx)
  show (st.requests ++ [r]).find? _ = some r
  rw [find?_append_none _ _ _ h1]
  exact List.find?_cons_of_pos _ (by simp [hbin])

/-- Appending a row owned by the bin extends that bin's request list at the
back. -/
theorem binRequests_insert (st : Store) (r : ReqRec) (binId : String)
    (h : r.binId = binId) :
    binRequests (execInsertRequest st r) binId = binRequests st binId ++ [r] := by
  simp [binRequests, execInsertRequest, List.filter_append, h]

/-! ## Concrete stores used as explicit inputs -/

/-- A captured request owned by bin `b1`. -/
def demoReq : ReqRec :=
  ⟨"r1", "b1", "POST", "/b1", [("Content-Type", "text/plain")], [], "hello", "127.0.0.1:9", 5⟩

/-- One bin `b1` (created 0, expires 1000) holding exactly one request. -/
def demoStore : Store := ⟨[⟨"b1", 0, 1000⟩], [demoReq]⟩

/-- One bin `b1` with no captured requests. -/
def emptyBinStore : Store := ⟨[⟨"b1", 0, 1000⟩], []⟩

/-- An incoming request used as concrete capture input, with a repeated
query key to exercise the first-value-wins collapse. -/
def demoInc : Incoming :=
  ⟨"POST", "/b1", [("Content-Type", ["text/plain"])], [("k", ["v1", "v2"])],
   "hello", "127.0.0.1:9"⟩

/-! ## Claim theorems -/

/-- C2: with bin `b1` holding exactly one request, the statement interleaving
SELECT(A); SELECT(B); DELETE(A); DELETE(B) — possible because the shift
handler's SELECT and DELETE are separate statements with no enclosing
transaction or per-bin mutex — makes BOTH concurrent shift callers receive
the same record with a 200, while the claim requires that exactly one
receives it and the other gets NotFound, and that no record is ever returned
twice. -/
theorem c2_concurrent_shift_double_delivery :
    shiftTwoInterleaved demoStore "b1"
      = (ShiftResp.ok demoReq, ShiftResp.ok demoReq, Store.mk [⟨"b1", 0, 1000⟩] []) := by
  decide

/-- C3: `deleteBinHandler` runs only `DELETE FROM bins WHERE bin_id = ?` and
never touches the `requests` table (the schema's FOREIGN KEY carries no ON
DELETE CASCADE and SQLite enforcement is off), so after deleting bin `b1`
its captured request is still returned by Get and still counted — the
claimed cascade does not happen. -/
theorem c3_delete_bin_without_cascade :
    (deleteBinHandler demoStore "b1").1 = DeleteResp.ok ∧
    getBinHandler (deleteBinHandler demoStore "b1").2 "b1" = GetBinResp.notFound ∧
    getRequestHandler (deleteBinHandler demoStore "b1").2 "b1" "r1" = GetReqResp.ok demoReq ∧
    countRequests (deleteBinHandler demoStore "b1").2 "b1" = 1 := by
  decide

/-- C4: a capture attempt on a missing bin fails with NotFound, one on an
existing but expired bin (`now > expires_at`) fails with Gone, and in either
failure case the store is returned unchanged — no request row is written. -/
theorem c4_capture_failure_modes (st : Store) (now : Int) (rid binId : String)
    (inc : Incoming) :
    (queryBin st binId = none →
      captureRequestHandler st now rid binId inc = (CaptureResp.notFound, st)) ∧
    (∀ b, queryBin st binId = some b → b.expiresAt < now →
      captureRequestHandler st now rid binId inc = (CaptureResp.gone, st)) :=
  ⟨fun h => capture_notFound st now rid binId inc h,
   fun b hb hexp => capture_gone st b now rid binId inc hb hexp⟩

theorem c4_witness :
    captureRequestHandler (Store.mk [] []) 5 "r9" "zzzz" demoInc
      = (CaptureResp.notFound, Store.mk [] []) ∧
    captureRequestHandler demoStore 2000 "r9" "b1" demoInc
      = (CaptureResp.gone, demoStore) :=
  ⟨(c4_capture_failure_modes (Store.mk [] []) 5 "r9" "zzzz" demoInc).1 (by decide),
   (c4_capture_failure_modes demoStore 2000 "r9" "b1" demoInc).2 ⟨"b1", 0, 1000⟩
     (by decide) (by decide)⟩

/-- C5: the capture handler checks only `err == sql.ErrNoRows` after its
expiry scan, so a storage-level failure of that SELECT leaves `expires` at
its zero value and the handler answers 410 Gone — a client-class status, not
the claimed 5xx-equivalent.  The storage error is mapped to the wrong
failure, contradicting the claim at this concrete input. -/
theorem c5_storage_error_reported_as_gone :
    captureCore demoStore QueryOutcome.storageError true 5 "r9" "b1" demoInc
      = (CaptureResp.gone, demoStore) := by
  decide

/-- C6: GetBin answers NotFound exactly when the bin row is absent; an
existing bin — expired or not, since the handler never consults a clock —
returns its stored metadata together with the current entry count. -/
theorem c6_getbin_notfound_iff_absent (st : Store) (binId : String) :
    (getBinHandler st binId = GetBinResp.notFound ↔ queryBin st binId = none) ∧
    (∀ b, queryBin st binId = some b →
      getBinHandler st binId
        = GetBinResp.ok ⟨b.binId, b.createdAt, b.expiresAt, countRequests st binId⟩) := by
  refine ⟨⟨?_, getBinHandler_none st binId⟩, getBinHandler_some st binId⟩
  intro h
  cases hq : queryBin st binId with
  | none => rfl
  | some b =>
      rw [getBinHandler_some st binId b hq] at h
      exact GetBinResp.noConfusion h

theorem c6_witness :
    (getBinHandler demoStore "nope" = GetBinResp.notFound ↔ queryBin demoStore "nope" = none) ∧
    getBinHandler demoStore "b1" = GetBinResp.ok ⟨"b1", 0, 1000, 1⟩ :=
  ⟨(c6_getbin_notfound_iff_absent demoStore "nope").1,
   (c6_getbin_notfound_iff_absent demoStore "b1").2 ⟨"b1", 0, 1000⟩ (by decide)⟩

/-- C8: DeleteBin always reports success — also for a bin that was never
created or was already deleted — and after it GetBin on the same id answers
NotFound. -/
theorem c8_delete_idempotent (st : Store) (binId : String) :
    (deleteBinHandler st binId).1 = DeleteResp.ok ∧
    getBinHandler (deleteBinHandler st binId).2 binId = GetBinResp.notFound ∧
    (deleteBinHandler (deleteBinHandler st binId).2 binId).1 = DeleteResp.ok :=
  ⟨rfl, getBinHandler_none _ binId (queryBin_deleteBin st binId), rfl⟩

/-- C9: the `now` field of a GetBin response is the bin's stored
`created_at` (the Go `Bin` struct scans the `created_at` column into its
`Now` field), not the clock at call time: the handler takes no clock input,
so its response is a function of the stored row and the entry count alone. -/
theorem c9_getbin_now_is_created_at (st : Store) (binId : String) (b : BinRec)
    (hb : queryBin st binId = some b) :
    getBinHandler st binId
      = GetBinResp.ok ⟨b.binId, b.createdAt, b.expiresAt, countRequests st binId⟩ :=
  getBinHandler_some st binId b hb

theorem c9_witness :
    getBinHandler demoStore "b1" = GetBinResp.ok ⟨"b1", 0, 1000, 1⟩ :=
  c9_getbin_now_is_created_at demoStore "b1" ⟨"b1", 0, 1000⟩ (by decide)

/-- C7: a successfully captured request read back via Get, or popped via
Shift, carries exactly the submitted values: headers and query collapsed to
the first value per key, and the body the identical string. -/
theorem c7_roundtrip (st : Store) (b : BinRec) (now : Int) (rid binId : String)
    (inc : Incoming)
    (hb : queryBin st binId = some b) (hlive : now ≤ b.expiresAt)
    (hfresh : rid ∉ st.requests.map (fun q => q.reqId))
    (hempty : binRequests st binId = []) :
    getRequestHandler (captureRequestHandler st now rid binId inc).2 binId rid
      = GetReqResp.ok (capRecord binId now rid inc) ∧
    (shiftRequestHandler (captureRequestHandler st now rid binId inc).2 binId).1
      = ShiftResp.ok (capRecord binId now rid inc) ∧
    (capRecord binId now rid inc).headers = firstValues inc.headers ∧
    (capRecord binId now rid inc).query = firstValues inc.query ∧
    (capRecord binId now rid inc).body = inc.body := by
  have hst : (captureRequestHandler st now rid binId inc).2
      = execInsertRequest st (capRecord binId now rid inc) := by
    rw [capture_ok st b now rid binId inc hb hlive]
  rw [hst]
  refine ⟨?_, ?_, rfl, rfl, rfl⟩
  · have hq : queryRequest (execInsertRequest st (capRecord binId now rid inc)) binId rid
        = some (capRecord binId now rid inc) :=
      queryRequest_after_insert st binId (capRecord binId now rid inc) rfl hfresh
    unfold getRequestHandler
    rw [hq]
  · have hbr : binRequests (execInsertRequest st (capRecord binId now rid inc)) binId
        = [capRecord binId now rid inc] := by
      rw [binRequests_insert st _ binId rfl, hempty]
      rfl
    have hsel : selectOldest (execInsertRequest st (capRecord binId now rid inc)) binId
        = some (capRecord binId now rid inc) := by
      rw [selectOldest_eq, hbr]
      exact minByInserted_head _ [] (fun x hx => absurd hx (List.not_mem_nil x))
    unfold shiftRequestHandler
    rw [hsel]
    rfl

theorem c7_witness :
    getRequestHandler (captureRequestHandler emptyBinStore 5 "r1" "b1" demoInc).2 "b1" "r1"
      = GetReqResp.ok (capRecord "b1" 5 "r1" demoInc) ∧
    (shiftRequestHandler (captureRequestHandler emptyBinStore 5 "r1" "b1" demoInc).2 "b1").1
      = ShiftResp.ok (capRecord "b1" 5 "r1" demoInc) ∧
    (capRecord "b1" 5 "r1" demoInc).headers = firstValues demoInc.headers ∧
    (capRecord "b1" 5 "r1" demoInc).query = firstValues demoInc.query ∧
    (capRecord "b1" 5 "r1" demoInc).body = demoInc.body :=
  c7_roundtrip emptyBinStore ⟨"b1", 0, 1000⟩ 5 "r1" "b1" demoInc
    (by decide) (by decide) (by decide) (by decide)

/-- C1: capturing N requests into a live, initially empty bin (fresh and
pairwise distinct request ids, nondecreasing capture timestamps — the
wall-clock readings of successive `time.Now().UnixMilli()` calls) and then
performing N isolated Shift operations returns exactly the N captured
records, in nondecreasing `inserted` order with timestamp ties broken by
insertion (rowid) sequence, each exactly once; the (N+1)-th Shift answers
NotFound. -/
theorem c1_capture_then_shift_fifo (st : Store) (binId : String) (b : BinRec)
    (cs : List (Int × String × Incoming))
    (hb : queryBin st binId = some b)
    (hlive : ∀ c ∈ cs, c.1 ≤ b.expiresAt)
    (hempty : binRequests st binId = [])
    (hmono : cs.Pairwise (fun a c => a.1 ≤ c.1))
    (hcs : (cs.map (fun c => c.2.1)).Nodup)
    (hfresh : ∀ c ∈ cs, c.2.1 ∉ st.requests.map (fun q => q.reqId))
    (hids : (st.requests.map (fun q => q.reqId)).Nodup) :
    ∃ st1,
      captureList st binId cs = some st1 ∧
      (shiftN cs.length st1 binId).1 = cs.map (fun c => capRecord binId c.1 c.2.1 c.2.2) ∧
      shiftRequestHandler (shiftN cs.length st1 binId).2 binId
        = (ShiftResp.notFound, (shiftN cs.length st1 binId).2) := by
  have hmap : (cs.map (fun c => capRecord binId c.1 c.2.1 c.2.2)).length = cs.length :=
    List.length_map _ _
  refine ⟨⟨st.bins, st.requests ++ cs.map (fun c => capRecord binId c.1 c.2.1 c.2.2)⟩,
          captureList_ok binId b cs st hb hlive, ?_⟩
  have hbr1 : binRequests
      ⟨st.bins, st.requests ++ cs.map (fun c => capRecord binId c.1 c.2.1 c.2.2)⟩ binId
      = cs.map (fun c => capRecord binId c.1 c.2.1 c.2.2) := by
    rw [binRequests_captured st binId cs, hempty, List.nil_append]
  have hids1 : (((Store.mk st.bins
      (st.requests ++ cs.map (fun c => capRecord binId c.1 c.2.1 c.2.2))).requests).map
        (fun q => q.reqId)).Nodup := by
    show ((st.requests ++ cs.map (fun c => capRecord binId c.1 c.2.1 c.2.2)).map
      (fun q => q.reqId)).Nodup
    rw [List.map_append, List.nodup_append]
    refine ⟨hids, ?_, ?_⟩
    · have hcomp : ((cs.map (fun c => capRecord binId c.1 c.2.1 c.2.2)).map
          (fun q => q.reqId)) = cs.map (fun c => c.2.1) := by
        rw [List.map_map]
        rfl
      rw [hcomp]
      exact hcs
    · intro a ha1 ha2
      rw [List.map_map] at ha2
      obtain ⟨c, hc, rfl⟩ := List.mem_map.1 ha2
      exact hfresh c hc ha1
  have hsort1 : (cs.map (fun c => capRecord binId c.1 c.2.1 c.2.2)).Pairwise
      (fun a c => a.inserted ≤ c.inserted) := by
    rw [List.pairwise_map]
    exact hmono
  obtain ⟨h1, h2⟩ := shiftN_exact binId (cs.map (fun c => capRecord binId c.1 c.2.1 c.2.2))
    ⟨st.bins, st.requests ++ cs.map (fun c => capRecord binId c.1 c.2.1 c.2.2)⟩
    hbr1 hids1 hsort1
  constructor
  · rw [← hmap]
    exact h1
  · rw [← hmap]
    exact shift_on_empty _ binId h2

/-- Two captures with colliding timestamps, exercising the tie-break. -/
def twoCaps : List (Int × String × Incoming) := [(5, "r1", demoInc), (5, "r2", demoInc)]

theorem c1_witness :
    ∃ st1,
      captureList emptyBinStore "b1" twoCaps = some st1 ∧
      (shiftN twoCaps.length st1 "b1").1
        = twoCaps.map (fun c => capRecord "b1" c.1 c.2.1 c.2.2) ∧
      shiftRequestHandler (shiftN twoCaps.length st1 "b1").2 "b1"
        = (ShiftResp.notFound, (shiftN twoCaps.length st1 "b1").2) :=
  c1_capture_then_shift_fifo emptyBinStore "b1" ⟨"b1", 0, 1000⟩ twoCaps
    (by decide) (by decide) (by decide) (by decide) (by decide) (by decide) (by decide)

/-! ## Router (the closure registered on "/api/bin/" in `main`) -/

/-- Go string slicing `s[i:j]`: defined when `i ≤ j ≤ len(s)`, otherwise a
runtime slice-bounds panic (modelled as `none`).  Paths are modelled as
character lists; the compared literals are ASCII, so byte offsets and
character offsets agree. -/
def goSlice (s : List Char) (i j : Nat) : Option (List Char) :=
  if i ≤ j ∧ j ≤ s.length then some ((s.drop i).take (j - i)) else none

/-- The four dispatch targets of the "/api/bin/" GET branch. -/
inductive Route where
  | shiftReq
  | getReq
  | getBin
  | apiNotFound
deriving Repr, DecidableEq

def apiBinRoot : List Char := "/api/bin/".toList

def reqShiftTail : List Char := "/req/shift".toList

def reqSeg : List Char := "/req/".toList

/-- The GET dispatch of the handler registered on "/api/bin/" in `main`:
equality with "/api/bin/" answers 404; for `len(path) > len("/api/bin/")+8`
the code compares `path[len(path)-len("/req/shift"):]` against "/req/shift"
and then `path[len("/api/bin/")+8 : len("/api/bin/")+8+len("/req/")]`
against "/req/"; shorter paths go to `getBinHandler`.  A `none` result is an
out-of-bounds slice, i.e. a Go runtime panic. -/
def routeGet (path : List Char) : Option Route :=
  if path = apiBinRoot then some .apiNotFound
  else if path.length > apiBinRoot.length + 8 then
    match goSlice path (path.length - reqShiftTail.length) path.length with
    | none => none
    | some t =>
        if t = reqShiftTail then some .shiftReq
        else
          match goSlice path (apiBinRoot.length + 8)
              (apiBinRoot.length + 8 + reqSeg.length) with
          | none => none
          | some seg => if seg = reqSeg then some .getReq else some .apiNotFound
  else some .getBin

/-- A full-suffix slice is total and is `List.drop`. -/
theorem goSlice_to_end (s : List Char) (i : Nat) (h : i ≤ s.length) :
    goSlice s i s.length = some (s.drop i) := by
  unfold goSlice
  rw [if_pos ⟨h, le_refl _⟩]
  refine congrArg some ?_
  exact List.take_of_length_le (le_of_eq (by rw [List.length_drop]))

/-- The failing GET path "/api/bin/aaaaaaaa/x": 19 characters, more than
`len("/api/bin/") + 8`, not ending in "/req/shift". -/
def cexPath : List Char := "/api/bin/aaaaaaaa/x".toList

/-- C10 (counterexample): this path starts with "/api/bin/" and is longer
than "/api/bin/" plus 8 characters, yet dispatch hits the out-of-bounds
slice `path[17:22]` (19 < 22) — a Go runtime panic — refuting the claim that
the router's extractions always stay in bounds for such paths. -/
theorem c10_counterexample :
    cexPath.take apiBinRoot.length = apiBinRoot ∧
    cexPath.length > apiBinRoot.length + 8 ∧
    routeGet cexPath = none := by
  decide

/-- C10 (amended): for a GET path longer than `len("/api/bin/") + 8`, the
router's fixed-offset extractions stay within bounds — so dispatch completes
without a panic — precisely under the extra proviso that the path's 10-char
suffix is "/req/shift" or the path has length at least
`len("/api/bin/") + 8 + len("/req/")` (= 22). -/
theorem c10_route_total (path : List Char)
    (hlen : path.length > apiBinRoot.length + 8)
    (hcase : path.drop (path.length - reqShiftTail.length) = reqShiftTail ∨
             apiBinRoot.length + 8 + reqSeg.length ≤ path.length) :
    (routeGet path).isSome := by
  have h9 : apiBinRoot.length = 9 := rfl
  have h10 : reqShiftTail.length = 10 := rfl
  have h5 : reqSeg.length = 5 := rfl
  have hne : path ≠ apiBinRoot := by
    intro h
    rw [h] at hlen
    omega
  unfold routeGet
  rw [if_neg hne, if_pos hlen]
  have hslice : goSlice path (path.length - reqShiftTail.length) path.length
      = some (path.drop (path.length - reqShiftTail.length)) :=
    goSlice_to_end path _ (by omega)
  rw [hslice]
  rcases hcase with hd | h22
  · simp [hd]
  · by_cases hd : path.drop (path.length - reqShiftTail.length) = reqShiftTail
    · simp [hd]
    · have hs2 : goSlice path (apiBinRoot.length + 8)
          (apiBinRoot.length + 8 + reqSeg.length)
          = some ((path.drop (apiBinRoot.length + 8)).take reqSeg.length) := by
        unfold goSlice
        rw [if_pos ⟨by omega, by omega⟩]
        rw [Nat.add_sub_cancel_left]
      rw [hs2]
      by_cases hseg : (path.drop (apiBinRoot.length + 8)).take reqSeg.length = reqSeg
      · simp [hd, hseg]
      · simp [hd, hseg]

theorem c10_witness : (routeGet ("/api/bin/aaaaaaaa/req/shift".toList)).isSome :=
  c10_route_total ("/api/bin/aaaaaaaa/req/shift".toList) (by decide) (Or.inl (by decide))
